import Mathlib

/-!
Verification of the Recurse Python REPL bootstrap worker
(`src/pkg/python/bootstrap.py`) against its natural-language specification.

The development shallowly embeds the worker:

* `PyVal` models the Python values the worker stores in its namespace
  (strings, integers, `None`, and opaque preloaded helper objects).
* `Expr` / `Stmt` model the fragment of evaluated user code that the
  claims exercise: literals, variable reads, assignments, a
  side-effecting expression (`incr`), `print`, and `raise`.  Evaluation
  threads a globals map and a captured-stdout write list, exactly as the
  source threads `globals_dict` and the `io.StringIO` capture buffers.
* `REPLNamespace` / `REPL` embed the classes of the same names:
  `set_var`, `get_var`, `list_vars`, `update_from_exec`, `execute`.
* A JSON wire model embeds `handle_request` and the `main` loop.
* `WorkerCtx` with `make_callback` and the helper shims (`llm_call`,
  `llm_batch`, the memory helpers, `verify_claim`) embeds the callback
  protocol; the host is modelled as the list of callback-response lines
  remaining on the captured stdin, with the empty list meaning EOF.

Exceptions are modelled with `Except` / explicit error constructors;
machine-level concerns (wall-clock durations, `resource` usage, the
traceback text appended to error messages) are outside the model and
noted where they are dropped.
-/

/-- A Python value as stored in the worker namespace.  `vobj` stands for
the opaque preloaded objects (modules, helper functions, classes) that
the claims never inspect beyond identity. -/
inductive PyVal where
  | vstr (s : String)
  | vint (n : Int)
  | vnone
  | vobj (tag : String)
  deriving DecidableEq

/-- Python `repr` restricted to the modelled values.  String `repr` is
modelled for strings without quotes or escapes in them: a pair of single
quotes around the text. -/
def pyRepr : PyVal → String
  | .vstr s => "\x27" ++ s ++ "\x27"
  | .vint n => toString n
  | .vnone => "None"
  | .vobj tag => "<" ++ tag ++ ">"

/-- Python `str` restricted to the modelled values. -/
def pyStr : PyVal → String
  | .vstr s => s
  | .vint n => toString n
  | .vnone => "None"
  | .vobj tag => "<" ++ tag ++ ">"

/-- Does the value support `len(...)`?  Among the modelled values only
strings do (mirrors `hasattr(value, "__len__")`). -/
def hasLen : PyVal → Bool
  | .vstr _ => true
  | _ => false

/-- `len(...)` on the modelled values (counts code points, as Python does). -/
def pyLen : PyVal → Nat
  | .vstr s => s.length
  | _ => 0

/-- Does the value support subscription?  (mirrors `hasattr(value, "__getitem__")`). -/
def hasGetitem : PyVal → Bool
  | .vstr _ => true
  | _ => false

/-- `type(value).__name__` on the modelled values. -/
def pyTypeName : PyVal → String
  | .vstr _ => "str"
  | .vint _ => "int"
  | .vnone => "NoneType"
  | .vobj _ => "object"

/-- Clamp one slice bound the way Python slicing does: negative indices
count from the end (clamped at 0), positive indices are clamped at the
length. -/
def sliceBound (len : Nat) (i : Int) : Nat :=
  if i < 0 then ((len : Int) + i).toNat else min i.toNat len

/-- Python `cs[a:b]` on a list of characters. -/
def pySliceChars (cs : List Char) (a b : Int) : List Char :=
  (cs.take (sliceBound cs.length b)).drop (sliceBound cs.length a)

/-- Python `v[a:b]` on the modelled values (only strings are subscriptable). -/
def pySliceVal (v : PyVal) (a b : Int) : PyVal :=
  match v with
  | .vstr s => .vstr (String.mk (pySliceChars s.data a b))
  | w => w

/-- Python `v[a:]` on the modelled values. -/
def pySliceFromVal (v : PyVal) (a : Int) : PyVal :=
  match v with
  | .vstr s => .vstr (String.mk (s.data.drop (sliceBound s.data.length a)))
  | w => w

/-- Association-list lookup for the namespace maps (Python `dict` access). -/
def alookup : List (String × PyVal) → String → Option PyVal
  | [], _ => none
  | (k, v) :: rest, n => if k = n then some v else alookup rest n

/-- Association-list update for the namespace maps.  Like a Python `dict`
assignment it updates an existing key in place and appends a new key at
the end, preserving insertion order. -/
def ainsert : List (String × PyVal) → String → PyVal → List (String × PyVal)
  | [], n, v => [(n, v)]
  | (k, w) :: rest, n, v =>
      if k = n then (k, v) :: rest else (k, w) :: ainsert rest n v

/-- The ASCII fragment of Python `str.isidentifier`: nonempty, first
character a letter or underscore, the rest letters, digits or
underscores.  (Python additionally admits some non-ASCII identifier
characters; the worker is only ever driven with ASCII names.) -/
def pyIsIdentifier (s : String) : Bool :=
  match s.data with
  | [] => false
  | c :: cs => (c.isAlpha || c == '_') && cs.all (fun d => d.isAlphanum || d == '_')

/-- The globals mapping handed to one evaluation (the copy of
`REPLNamespace._globals` built by `get_globals`). -/
abbrev Globals := List (String × PyVal)

/-- The fragment of evaluated Python expressions that the claims
exercise.  `incr x` stands for a side-effecting expression such as
`x := x + 1` (it rebinds `x` in the globals and returns the new value);
`printE` stands for `print("...")` (writes to the redirected stdout and
returns `None`); `raiseErr` stands for an expression that raises. -/
inductive Expr where
  | lit (v : PyVal)
  | var (name : String)
  | incr (name : String)
  | printE (s : String)
  | raiseErr (msg : String)
  deriving DecidableEq

/-- A top-level statement of the evaluated block: an assignment or an
expression statement (`ast.Expr`). -/
inductive Stmt where
  | assign (name : String) (e : Expr)
  | exprStmt (e : Expr)
  deriving DecidableEq

/-- Result of evaluating one expression: either a value together with
the mutated globals and the list of writes to the captured stdout, or an
exception message together with the writes made before the raise.  (The
partially mutated globals copy is unreachable in the source after an
exception — `execute` catches it at line 1628 without reconciling — so
the error case does not carry it.) -/
inductive EvalRes where
  | ok (g : Globals) (out : List String) (v : PyVal)
  | err (out : List String) (msg : String)
  deriving DecidableEq

/-- Evaluate one expression against the globals copy. -/
def evalExpr (g : Globals) : Expr → EvalRes
  | .lit v => .ok g [] v
  | .var x =>
      match alookup g x with
      | some v => .ok g [] v
      | none => .err [] ("NameError: name " ++ x ++ " is not defined")
  | .incr x =>
      match alookup g x with
      | some (.vint n) => .ok (ainsert g x (.vint (n + 1))) [] (.vint (n + 1))
      | some _ => .err [] ("TypeError: cannot increment " ++ x)
      | none => .err [] ("NameError: name " ++ x ++ " is not defined")
  | .printE s => .ok g [s ++ "\n"] .vnone
  | .raiseErr msg => .err [] ("RuntimeError: " ++ msg)

/-- Result of running statements: the mutated globals and captured
output, or the exception that aborted the block. -/
inductive BlockRes where
  | ok (g : Globals) (out : List String)
  | err (out : List String) (msg : String)
  deriving DecidableEq

/-- Run one statement. -/
def execStmt (g : Globals) : Stmt → BlockRes
  | .assign x e =>
      match evalExpr g e with
      | .ok g2 out v => .ok (ainsert g2 x v) out
      | .err out msg => .err out msg
  | .exprStmt e =>
      match evalExpr g e with
      | .ok g2 out _ => .ok g2 out
      | .err out msg => .err out msg

/-- Run a block of statements, stopping at the first exception
(`exec(compile(tree, ..., "exec"), globals_dict)`). -/
def execBlock (g : Globals) : List Stmt → BlockRes
  | [] => .ok g []
  | s :: rest =>
      match execStmt g s with
      | .err out msg => .err out msg
      | .ok g2 out =>
          match execBlock g2 rest with
          | .ok g3 out2 => .ok g3 (out ++ out2)
          | .err out2 msg => .err (out ++ out2) msg

/-- A code fragment after the classification step of `execute`
(lines 1595-1600): `ast.parse(code, mode="eval")` succeeded and the code
is a single expression, or it failed with a `SyntaxError` and the code
parsed as a block of statements. -/
inductive Code where
  | exprCode (e : Expr)
  | blockCode (ss : List Stmt)
  deriving DecidableEq

/-- The filter set of `update_from_exec` (bootstrap.py lines 1502-1521):
preloaded or helper names that are never recorded as user-defined. -/
def stdlibNames : List String :=
  ["re", "json", "ast", "pathlib", "itertools", "collections", "Path", "pydantic",
   "np", "numpy", "pd", "pandas", "pl", "polars", "sns", "seaborn",
   "uv", "ruff", "ty", "lint", "fmt", "typecheck",
   "RLMContext", "peek", "grep", "partition", "partition_by_lines",
   "extract_functions", "count_tokens_approx", "summarize", "map_reduce",
   "find_relevant", "llm_call", "llm_batch", "FINAL", "FINAL_VAR",
   "FINAL_JSON", "FINAL_CODE", "FinalOutput", "get_final_output",
   "get_final_metadata", "has_final_output", "clear_final_output",
   "disable_callbacks", "enable_callbacks",
   "MemoryNode", "memory_query", "memory_add_fact", "memory_add_experience",
   "memory_get_context", "memory_relate", "disable_memory", "enable_memory",
   "verify_claim", "verify_claims", "audit_trace",
   "disable_hallucination_detection", "enable_hallucination_detection"]

/-- The `REPLNamespace` state: `vars` is `_vars` (the user-set and
user-defined map surfaced by `list_vars`), `globals` is `_globals` (the
binding map copied into each evaluation). -/
structure REPLNamespace where
  vars : List (String × PyVal)
  globals : List (String × PyVal)
  deriving DecidableEq

/-- `REPLNamespace.set_var` (lines 1460-1463): store the value in both maps. -/
def REPLNamespace.set_var (ns : REPLNamespace) (name : String) (value : PyVal) :
    REPLNamespace :=
  { vars := ainsert ns.vars name value, globals := ainsert ns.globals name value }

/-- `REPLNamespace.get_var` (lines 1465-1471): `_vars` wins, then
`_globals`, else `KeyError`. -/
def REPLNamespace.get_var (ns : REPLNamespace) (name : String) : Except String PyVal :=
  match alookup ns.vars name with
  | some v => .ok v
  | none =>
      match alookup ns.globals name with
      | some v => .ok v
      | none => .error ("Variable \x27" ++ name ++ "\x27 not found")

/-- One entry of the `list_vars` result (lines 1473-1492): name, type
name, and a length when the value supports one.  The best-effort
`__sizeof__` field is interpreter memory accounting, outside the model. -/
structure VarInfo where
  name : String
  type : String
  length : Option Nat
  deriving DecidableEq

/-- `REPLNamespace.list_vars`: one entry per `_vars` binding, in
insertion order. -/
def REPLNamespace.list_vars (ns : REPLNamespace) : List VarInfo :=
  ns.vars.map (fun p =>
    { name := p.1, type := pyTypeName p.2,
      length := if hasLen p.2 then some (pyLen p.2) else none })

/-- `REPLNamespace.get_globals` (lines 1494-1496): the copy of the
binding map handed to one evaluation.  Copying is implicit in the pure
model. -/
def REPLNamespace.get_globals (ns : REPLNamespace) : Globals := ns.globals

/-- `name.startswith("_")` on the first character, written over the
character list so that concrete instances evaluate by `rfl`. -/
def startsUnderscore (s : String) : Bool :=
  match s.data with
  | [] => false
  | c :: _ => c == '_'

/-- One step of the `update_from_exec` scan (lines 1523-1530): skip
underscore-prefixed temporaries, builtins and preloaded names, record a
binding whose identity changed.  Run as a script the worker has
`__builtins__` bound to the builtins module, which has no `__iter__`,
so the `builtins` set of line 1501 is empty.  Python `is` identity on
the stored objects is modelled as structural equality on `PyVal`. -/
def updateStep (ns : REPLNamespace) (p : String × PyVal) : REPLNamespace :=
  if startsUnderscore p.1 then ns
  else if stdlibNames.contains p.1 then ns
  else if alookup ns.globals p.1 = some p.2 then ns
  else { vars := ainsert ns.vars p.1 p.2, globals := ainsert ns.globals p.1 p.2 }

/-- `REPLNamespace.update_from_exec` (lines 1498-1530): reconcile the
namespace against the post-execution globals copy. -/
def REPLNamespace.update_from_exec (ns : REPLNamespace) (newGlobals : Globals) :
    REPLNamespace :=
  newGlobals.foldl updateStep ns

/-- The preloaded binding map of `REPLNamespace.__init__`
(lines 1389-1458), for a run where none of the optional libraries
(pydantic, numpy, pandas, polars, seaborn) are importable.  Each
preloaded module, class or helper is an opaque `vobj`. -/
def initGlobals : Globals :=
  ["re", "json", "ast", "pathlib", "itertools", "collections", "Path",
   "RLMContext", "peek", "grep", "partition", "partition_by_lines",
   "extract_functions", "count_tokens_approx", "summarize", "map_reduce",
   "find_relevant", "llm_call", "llm_batch", "FINAL", "FINAL_VAR",
   "FINAL_JSON", "FINAL_CODE", "FinalOutput", "get_final_output",
   "get_final_metadata", "has_final_output", "clear_final_output",
   "disable_callbacks", "enable_callbacks",
   "MemoryNode", "memory_query", "memory_add_fact", "memory_add_experience",
   "memory_get_context", "memory_relate", "disable_memory", "enable_memory",
   "uv", "ruff", "ty", "lint", "fmt", "typecheck",
   "verify_claim", "verify_claims", "audit_trace",
   "disable_hallucination_detection", "enable_hallucination_detection"].map
    (fun n => (n, PyVal.vobj n))

/-- The namespace right after `REPLNamespace.__init__`. -/
def initREPLNamespace : REPLNamespace :=
  { vars := [], globals := initGlobals }

/-- The `REPL` object state: its namespace and the execution counter.
`start_time` is wall-clock state, outside the model. -/
structure REPLState where
  ns : REPLNamespace
  exec_count : Nat
  deriving DecidableEq

/-- The worker state right after `REPL.__init__`. -/
def initREPLState : REPLState :=
  { ns := initREPLNamespace, exec_count := 0 }

/-- The `execute` reply (lines 1633-1638).  `output` is the list of
writes captured from the redirected stdout (the stderr capture stays
empty in the modelled fragment); `duration_ms` is wall-clock time,
outside the model. -/
structure ExecResult where
  output : List String
  return_value : String
  error : String
  deriving DecidableEq

/-- `REPL.execute` (lines 1583-1638).  The code arrives pre-classified
(`Code`); the exception message stands for the
`f"{type(e).__name__}: {e}"` prefix of the reported error, whose
appended traceback text is outside the model. -/
def REPL.execute (st : REPLState) (c : Code) : REPLState × ExecResult :=
  let st1 : REPLState := { st with exec_count := st.exec_count + 1 }
  match c with
  | .exprCode e =>
      match evalExpr st1.ns.get_globals e with
      | .ok g out v =>
          ({ st1 with ns := st1.ns.update_from_exec g },
           { output := out,
             return_value := if v = .vnone then "" else pyRepr v,
             error := "" })
      | .err out msg =>
          (st1, { output := out, return_value := "", error := msg })
  | .blockCode ss =>
      match execBlock st1.ns.get_globals ss with
      | .err out msg =>
          (st1, { output := out, return_value := "", error := msg })
      | .ok g out =>
          let st2 : REPLState := { st1 with ns := st1.ns.update_from_exec g }
          match ss.getLast? with
          | some (.exprStmt e) =>
              match evalExpr g e with
              | .ok _ out2 v =>
                  (st2, { output := out ++ out2,
                          return_value := if v = .vnone then "" else pyRepr v,
                          error := "" })
              | .err out2 _ =>
                  (st2, { output := out ++ out2, return_value := "", error := "" })
          | _ => (st2, { output := out, return_value := "", error := "" })

/-- `REPL.set_var` (lines 1640-1645): validate the name, store the
string in both maps. -/
def REPL.set_var (st : REPLState) (name : String) (value : String) :
    Except String REPLState :=
  if name = "" || !(pyIsIdentifier name) then
    .error ("Invalid variable name: " ++ name)
  else
    .ok { st with ns := st.ns.set_var name (.vstr value) }

/-- The `get_var` reply (lines 1666-1670). -/
structure GetVarResult where
  value : String
  length : Nat
  type : String
  deriving DecidableEq

/-- `REPL.get_var` (lines 1647-1670): fetch, remember the pre-slicing
length, slice when `start` or `end` is non-zero and the value is
subscriptable, then render with `str` or `repr`. -/
def REPL.get_var (st : REPLState) (name : String) (start stop : Int)
    (as_repr : Bool) : Except String GetVarResult :=
  match st.ns.get_var name with
  | .error e => .error e
  | .ok value =>
      let total_len := if hasLen value then pyLen value else 0
      let value2 :=
        if start ≠ 0 ∨ stop ≠ 0 then
          if hasGetitem value then
            if stop ≠ 0 then pySliceVal value start stop
            else pySliceFromVal value start
          else value
        else value
      .ok { value := if as_repr then pyRepr value2 else pyStr value2,
            length := total_len,
            type := pyTypeName value }

/-- `REPL.list_vars` (lines 1672-1674). -/
def REPL.list_vars (st : REPLState) : List VarInfo :=
  st.ns.list_vars

/-- The names surfaced by `list_vars`. -/
def listVarsNames (st : REPLState) : List String :=
  (REPL.list_vars st).map (fun i => i.name)

/-- One host command, with the `execute` code pre-classified.  Mirrors
the dispatch of `handle_request` (lines 1541-1581). -/
inductive Command where
  | execCmd (c : Code)
  | setVarCmd (name value : String)
  | getVarCmd (name : String) (start stop : Int) (as_repr : Bool)
  | listVarsCmd
  | statusCmd
  deriving DecidableEq

/-- State transition of one command.  `handle_request` catches every
exception and turns it into a `-32603` reply, so a failing `set_var`
leaves the state unchanged; `get_var`, `list_vars` and `status` never
mutate the worker. -/
def runCommand (st : REPLState) (c : Command) : REPLState :=
  match c with
  | .execCmd code => (REPL.execute st code).1
  | .setVarCmd n v =>
      match REPL.set_var st n v with
      | .ok st2 => st2
      | .error _ => st
  | .getVarCmd _ _ _ _ => st
  | .listVarsCmd => st
  | .statusCmd => st

/-- Run a sequence of host commands from a starting state. -/
def runCommands (st : REPLState) (cs : List Command) : REPLState :=
  cs.foldl runCommand st

/-- JSON values on the wire.  Numbers are modelled as rationals, which
covers the integers and the float fields the worker sends. -/
inductive Json where
  | obj (fields : List (String × Json))
  | arr (elems : List Json)
  | str (s : String)
  | num (q : Rat)
  | bool (b : Bool)
  | null

/-- Compare a JSON value against a literal string (the worker compares
`method` against each method name). -/
def jIsStr (j : Json) (s : String) : Bool :=
  match j with
  | .str t => t = s
  | _ => false

/-- Truthiness of the `as_repr` parameter as the worker receives it. -/
def jIsTrue (j : Json) : Bool :=
  match j with
  | .bool b => b
  | _ => false

/-- `mapping.get(key, default)` on a JSON object field list. -/
def jGet : List (String × Json) → String → Json → Json
  | [], _, d => d
  | (k, v) :: rest, key, d => if k = key then v else jGet rest key d

/-- Build the `{code:int, message:str}` error member of an error reply.
The `data` traceback text of line 1579 is outside the model. -/
def errObj (code : Int) (message : String) : Json :=
  .obj [("code", .num (code : Rat)), ("message", .str message)]

/-- Encode an `execute` result (lines 1633-1638); `duration_ms` is
reported as 0 because wall-clock time is outside the model. -/
def encodeExecResult (r : ExecResult) : Json :=
  .obj [("output", .str (String.join r.output)),
        ("return_value", .str r.return_value),
        ("error", .str r.error),
        ("duration_ms", .num 0)]

/-- Encode one `list_vars` entry (lines 1477-1491). -/
def encodeVarInfo (i : VarInfo) : Json :=
  match i.length with
  | some n =>
      .obj [("name", .str i.name), ("type", .str i.type), ("length", .num (n : Rat))]
  | none => .obj [("name", .str i.name), ("type", .str i.type)]

/-- Encode a `get_var` result (lines 1666-1670). -/
def encodeGetVarResult (r : GetVarResult) : Json :=
  .obj [("value", .str r.value), ("length", .num (r.length : Rat)),
        ("type", .str r.type)]

/-- Read an integer parameter the way the worker receives it
(`params.get(..., 0)` followed by integer use).  The hosts of the
protocol send integers; a non-integer JSON value raises when used,
which the model reports as an exception. -/
def jInt : Json → Except String Int
  | .num q => if q.den = 1 then .ok q.num else .error "TypeError: integer expected"
  | _ => .error "TypeError: integer expected"

/-- The dispatch of `handle_request` inside its `try` block
(lines 1547-1571), for one already-extracted method name and `params`
value.  The abstract `parse` argument stands for the two-mode
`ast.parse` classification at the head of `execute`; a `.error` return
is the `SyntaxError` raised by the exec-mode parse, which `execute`
catches and reports inside its result.  An `.error` return of the whole
dispatch is an exception that `handle_request` turns into a `-32603`
reply. -/
def dispatchMethod (parse : String → Except String Code) (st : REPLState)
    (method : Json) (params : Json) : Except String (REPLState × Json) :=
  if jIsStr method "execute" then
    match params with
    | .obj pf =>
        match jGet pf "code" (.str "") with
        | .str codeText =>
            match parse codeText with
            | .error msg =>
                let st1 : REPLState := { st with exec_count := st.exec_count + 1 }
                (.ok (st1, encodeExecResult
                  { output := [], return_value := "", error := msg }))
            | .ok c =>
                let (st2, r) := REPL.execute st c
                .ok (st2, encodeExecResult r)
        | _ => .error "TypeError: code must be a string"
    | _ => .error "AttributeError: params has no attribute get"
  else if jIsStr method "set_var" then
    match params with
    | .obj pf =>
        match jGet pf "name" .null, jGet pf "value" .null with
        | .str n, .str v =>
            match REPL.set_var st n v with
            | .ok st2 => .ok (st2, .obj [("ok", .bool true)])
            | .error e => .error e
        | .str n, _ => .error ("Invalid variable value for: " ++ n)
        | _, _ => .error "Invalid variable name: None"
    | _ => .error "AttributeError: params has no attribute get"
  else if jIsStr method "get_var" then
    match params with
    | .obj pf =>
        match jGet pf "name" .null with
        | .str n =>
            match jInt (jGet pf "start" (.num 0)), jInt (jGet pf "end" (.num 0)) with
            | .ok a, .ok b =>
                let asRepr := jIsTrue (jGet pf "as_repr" (.bool false))
                match REPL.get_var st n a b asRepr with
                | .ok r => .ok (st, encodeGetVarResult r)
                | .error e => .error e
            | _, _ => .error "TypeError: integer expected"
        | _ => .error "KeyError: name"
    | _ => .error "AttributeError: params has no attribute get"
  else if jIsStr method "list_vars" then
    .ok (st, .obj [("variables", .arr ((REPL.list_vars st).map encodeVarInfo))])
  else if jIsStr method "status" then
    -- resource usage and uptime are process observables outside the model;
    -- the modelled fields are `running` and `exec_count` (lines 1690-1698)
    .ok (st, .obj [("running", .bool true),
                   ("exec_count", .num (st.exec_count : Rat))])
  else
    .error "unreachable"

/-- `REPL.handle_request` (lines 1541-1581).  The `id`/`method`/`params`
extraction of lines 1543-1545 happens before the `try` block: on a
request that is not a JSON object the three `request.get` calls raise
`AttributeError`, which nothing in `handle_request` catches, so the
whole call is an exception (`Except.error`).  Inside the `try`,
`shutdown` and unknown methods return early, and any exception becomes
a `-32603` reply. -/
def handle_request (parse : String → Except String Code) (st : REPLState)
    (request : Json) : Except String (REPLState × Json) :=
  match request with
  | .obj fields =>
      let req_id := jGet fields "id" (.num 0)
      let method := jGet fields "method" (.str "")
      let params := jGet fields "params" (.obj [])
      if jIsStr method "shutdown" then
        .ok (st, .obj [("id", req_id), ("result", .obj [("ok", .bool true)])])
      else if jIsStr method "execute" || jIsStr method "set_var" ||
              jIsStr method "get_var" || jIsStr method "list_vars" ||
              jIsStr method "status" then
        match dispatchMethod parse st method params with
        | .ok (st2, result) =>
            .ok (st2, .obj [("id", req_id), ("result", result)])
        | .error msg =>
            .ok (st, .obj [("id", req_id), ("error", errObj (-32603) msg)])
      else
        .ok (st, .obj [("id", req_id),
          ("error", errObj (-32601)
            ("Method not found: " ++ (match method with | .str m => m | _ => "")))])
  | _ => .error "AttributeError: request object has no attribute get"

/-- One line arriving on the worker stdin, after `json.loads`:
blank (skipped), a JSON parse failure, or a parsed JSON value. -/
inductive InputLine where
  | blank
  | parseFail (msg : String)
  | parsed (j : Json)

/-- Is the parsed request a shutdown request (`request.get("method") ==
"shutdown"`, line 1729)?  Only reached for object requests. -/
def isShutdownReq : Json → Bool
  | .obj fields => jIsStr (jGet fields "method" .null) "shutdown"
  | _ => false

/-- The request loop of `main` (lines 1711-1730): the response frames
written, and `some exc` when an unhandled exception killed the worker
(the loop has no guard of its own, so an exception escaping
`handle_request` terminates the process before any frame is written for
that request). -/
def mainLoop (parse : String → Except String Code) (st : REPLState) :
    List InputLine → List Json × Option String
  | [] => ([], none)
  | .blank :: rest => mainLoop parse st rest
  | .parseFail msg :: rest =>
      let resp : Json :=
        .obj [("id", .num 0), ("error", errObj (-32700) ("Parse error: " ++ msg))]
      let (more, crash) := mainLoop parse st rest
      (resp :: more, crash)
  | .parsed j :: rest =>
      match handle_request parse st j with
      | .error exc => ([], some exc)
      | .ok (st2, resp) =>
          if isShutdownReq j then ([resp], none)
          else
            let (more, crash) := mainLoop parse st2 rest
            (resp :: more, crash)

/-- One parsed callback-response line from the host
(`{result?, results?, error?}`).  A missing `error` field and an empty
`error` string behave the same (`response.get("error")` truthiness), so
`error` is a plain string with `""` meaning no error. -/
structure CallbackResponse where
  result : Option Json
  results : Option (List Json)
  error : String
  deriving Inhabited

/-- One callback frame written by the worker to the captured stdout:
`{callback: type, callback_id, params}` (lines 1703-1707). -/
structure CallbackFrame where
  callback : String
  callback_id : Nat
  params : Json

/-- The callback-protocol state of one worker process:
`counter` is the module global `_callback_id_counter` (line 685),
`emitted` the callback frames written so far in order, `replies` the
callback-response lines remaining on the captured stdin (the empty list
is end-of-file), and the three enable flags are the module globals
toggled by the `disable_*`/`enable_*` helpers. -/
structure WorkerCtx where
  counter : Nat
  emitted : List CallbackFrame
  replies : List CallbackResponse
  callback_enabled : Bool
  memory_enabled : Bool
  hallucination_enabled : Bool

/-- A fresh worker: counter 0, nothing emitted, all subsystems enabled. -/
def initWorkerCtx (replies : List CallbackResponse) : WorkerCtx :=
  { counter := 0, emitted := [], replies := replies,
    callback_enabled := true, memory_enabled := true,
    hallucination_enabled := true }

/-- `_make_callback` (lines 691-724): bump the id counter, write the
frame to the captured stdout, block-read one line from the captured
stdin.  End-of-file and a non-empty `error` field both raise
`RuntimeError`, modelled as `Except.error`. -/
def make_callback (ctx : WorkerCtx) (ctype : String) (params : Json) :
    WorkerCtx × Except String CallbackResponse :=
  let cid := ctx.counter + 1
  let emitted := ctx.emitted ++ [{ callback := ctype, callback_id := cid, params := params }]
  match ctx.replies with
  | [] =>
      ({ ctx with counter := cid, emitted := emitted },
       .error "EOF while waiting for callback response")
  | r :: rest =>
      let ctx2 : WorkerCtx := { ctx with counter := cid, emitted := emitted, replies := rest }
      if r.error ≠ "" then
        (ctx2, .error ("LLM callback error: " ++ r.error))
      else
        (ctx2, .ok r)

/-- `llm_call` (lines 727-759): placeholder when callbacks are disabled,
otherwise one callback whose failure falls back to an error-placeholder
string.  The returned JSON value is the raw `result` field
(`response.get("result", "")`). -/
def llm_call (ctx : WorkerCtx) (prompt context model : String) : WorkerCtx × Json :=
  if !ctx.callback_enabled then
    (ctx, .str ("[LLM_CALL: prompt=" ++ prompt.take 50 ++ "..., context_len=" ++
                toString context.length ++ ", model=" ++ model ++ "]"))
  else
    match make_callback ctx "llm_call"
        (.obj [("prompt", .str prompt), ("context", .str context),
               ("model", .str model)]) with
    | (ctx2, .error e) => (ctx2, .str ("[LLM_CALL_ERROR: " ++ e ++ "]"))
    | (ctx2, .ok resp) => (ctx2, resp.result.getD (.str ""))

/-- The per-prompt fallback loop of `llm_batch`
(`[llm_call(p, c, model) for p, c in zip(prompts, contexts)]`, line 799). -/
def llmCallEach (ctx : WorkerCtx) (model : String) :
    List (String × String) → WorkerCtx × List Json
  | [] => (ctx, [])
  | (p, c) :: rest =>
      let (ctx2, r) := llm_call ctx p c model
      let (ctx3, rs) := llmCallEach ctx2 model rest
      (ctx3, r :: rs)

/-- `llm_batch` (lines 762-799): default the contexts, raise
`ValueError` on a length mismatch (this raise precedes the `try`, so it
propagates into the evaluating code), placeholders when disabled, one
batch callback whose failure falls back to per-prompt `llm_call`s. -/
def llm_batch (ctx : WorkerCtx) (prompts : List String)
    (contexts : Option (List String)) (model : String) :
    WorkerCtx × Except String (List Json) :=
  let ctxs := contexts.getD (List.replicate prompts.length "")
  if prompts.length ≠ ctxs.length then
    (ctx, .error "prompts and contexts must have same length")
  else if !ctx.callback_enabled then
    (ctx, .ok (prompts.map (fun p => .str ("[LLM_BATCH: prompt=" ++ p.take 30 ++ "...]"))))
  else
    match make_callback ctx "llm_batch"
        (.obj [("prompts", .arr (prompts.map Json.str)),
               ("contexts", .arr (ctxs.map Json.str)),
               ("model", .str model)]) with
    | (ctx2, .ok resp) =>
        (ctx2, .ok (resp.results.getD (List.replicate prompts.length (.str ""))))
    | (ctx2, .error _) =>
        let (ctx3, rs) := llmCallEach ctx2 model (prompts.zip ctxs)
        (ctx3, .ok rs)

/-- A memory node rebuilt from one JSON element (lines 821-835). -/
structure MemoryNode where
  id : String
  type : String
  content : String
  deriving Inhabited

/-- `MemoryNode(data)` for one JSON element; a non-object element makes
the constructor raise, which the calling helper catches. -/
def memoryNodeOfJson : Json → Except String MemoryNode
  | .obj f =>
      .ok { id := match jGet f "id" (.str "") with | .str s => s | _ => "",
            type := match jGet f "type" (.str "") with | .str s => s | _ => "",
            content := match jGet f "content" (.str "") with | .str s => s | _ => "" }
  | _ => .error "AttributeError: node data has no attribute get"

/-- `[MemoryNode(n) for n in nodes_data]`; iterating a non-list raises. -/
def memoryNodesOfJson : Json → Except String (List MemoryNode)
  | .arr elems => elems.foldr (fun e acc => do
      let n ← memoryNodeOfJson e
      let ns ← acc
      .ok (n :: ns)) (.ok [])
  | _ => .error "TypeError: nodes data is not iterable"

/-- `memory_query` (lines 838-866): empty list when memory is disabled,
one callback, and every failure — callback error, EOF, malformed node
data — is caught and becomes the empty list.  `loads` abstracts the
`json.loads` applied when the `result` field is a string. -/
def memory_query (loads : String → Except String Json) (ctx : WorkerCtx)
    (query : String) (limit : Int) : WorkerCtx × List MemoryNode :=
  if !ctx.memory_enabled then (ctx, [])
  else
    match make_callback ctx "memory_query"
        (.obj [("query", .str query), ("limit", .num (limit : Rat))]) with
    | (ctx2, .error _) => (ctx2, [])
    | (ctx2, .ok resp) =>
        let r := resp.result.getD (.str "[]")
        let dataE : Except String Json :=
          match r with
          | .str s => loads s
          | j => .ok j
        match dataE with
        | .error _ => (ctx2, [])
        | .ok d =>
            match memoryNodesOfJson d with
            | .ok ns => (ctx2, ns)
            | .error _ => (ctx2, [])

/-- `memory_add_fact` (lines 869-897): empty string when memory is
disabled or on any failure, otherwise the raw `result` field. -/
def memory_add_fact (ctx : WorkerCtx) (content : String) (confidence : Rat) :
    WorkerCtx × Json :=
  if !ctx.memory_enabled then (ctx, .str "")
  else
    match make_callback ctx "memory_add_fact"
        (.obj [("content", .str content), ("confidence", .num confidence)]) with
    | (ctx2, .error _) => (ctx2, .str "")
    | (ctx2, .ok resp) => (ctx2, resp.result.getD (.str ""))

/-- `memory_add_experience` (lines 900-932): same shape as
`memory_add_fact`. -/
def memory_add_experience (ctx : WorkerCtx) (content outcome : String)
    (success : Bool) : WorkerCtx × Json :=
  if !ctx.memory_enabled then (ctx, .str "")
  else
    match make_callback ctx "memory_add_experience"
        (.obj [("content", .str content), ("outcome", .str outcome),
               ("success", .bool success)]) with
    | (ctx2, .error _) => (ctx2, .str "")
    | (ctx2, .ok resp) => (ctx2, resp.result.getD (.str ""))

/-- `memory_get_context` (lines 935-963): same failure shape as
`memory_query`. -/
def memory_get_context (loads : String → Except String Json) (ctx : WorkerCtx)
    (limit : Int) : WorkerCtx × List MemoryNode :=
  if !ctx.memory_enabled then (ctx, [])
  else
    match make_callback ctx "memory_get_context"
        (.obj [("limit", .num (limit : Rat))]) with
    | (ctx2, .error _) => (ctx2, [])
    | (ctx2, .ok resp) =>
        let r := resp.result.getD (.str "[]")
        let dataE : Except String Json :=
          match r with
          | .str s => loads s
          | j => .ok j
        match dataE with
        | .error _ => (ctx2, [])
        | .ok d =>
            match memoryNodesOfJson d with
            | .ok ns => (ctx2, ns)
            | .error _ => (ctx2, [])

/-- `memory_relate` (lines 966-994): same shape as `memory_add_fact`. -/
def memory_relate (ctx : WorkerCtx) (label subject_id object_id : String) :
    WorkerCtx × Json :=
  if !ctx.memory_enabled then (ctx, .str "")
  else
    match make_callback ctx "memory_relate"
        (.obj [("label", .str label), ("subject_id", .str subject_id),
               ("object_id", .str object_id)]) with
    | (ctx2, .error _) => (ctx2, .str "")
    | (ctx2, .ok resp) => (ctx2, resp.result.getD (.str ""))

/-- `verify_claim` (lines 1019-1087): a fixed placeholder dict when
hallucination detection is disabled, one `plugin_call` callback whose
failure becomes the unverifiable dict with halved confidence. -/
def verify_claim (ctx : WorkerCtx) (claim evidence : String) (confidence : Rat) :
    WorkerCtx × Json :=
  if !ctx.hallucination_enabled then
    (ctx, .obj [("claim", .str claim), ("status", .str "unverifiable"),
                ("adjusted_confidence", .num confidence)])
  else
    match make_callback ctx "plugin_call"
        (.obj [("function", .str "hallucination_verify_claim"),
               ("args", .arr [.str claim, .str evidence, .num confidence])]) with
    | (ctx2, .error e) =>
        (ctx2, .obj [("claim", .str claim), ("status", .str "unverifiable"),
                     ("adjusted_confidence", .num (confidence * (1 / 2))),
                     ("explanation", .str ("Verification error: " ++ e))])
    | (ctx2, .ok resp) => (ctx2, resp.result.getD (.obj []))

/-- One helper invocation made by evaluating user code, or the boundary
between two `execute` evaluations.  `REPL.execute` never references
`_callback_id_counter` (lines 1583-1638), so an `execute` boundary
leaves the callback state untouched; the toggle operations are the
module-level enable/disable helpers. -/
inductive HelperOp where
  | llmCallOp (prompt context model : String)
  | llmBatchOp (prompts : List String) (contexts : Option (List String)) (model : String)
  | memQueryOp (query : String) (limit : Int)
  | memAddFactOp (content : String) (confidence : Rat)
  | memAddExperienceOp (content outcome : String) (success : Bool)
  | memGetContextOp (limit : Int)
  | memRelateOp (label subject_id object_id : String)
  | verifyClaimOp (claim evidence : String) (confidence : Rat)
  | disableCallbacksOp
  | enableCallbacksOp
  | disableMemoryOp
  | enableMemoryOp
  | disableHallucinationOp
  | enableHallucinationOp
  | execBoundaryOp

/-- Effect of one helper invocation on the callback state (return values
go to the evaluating user code and are dropped here). -/
def runHelperOp (loads : String → Except String Json) (ctx : WorkerCtx) :
    HelperOp → WorkerCtx
  | .llmCallOp p c m => (llm_call ctx p c m).1
  | .llmBatchOp ps cs m => (llm_batch ctx ps cs m).1
  | .memQueryOp q l => (memory_query loads ctx q l).1
  | .memAddFactOp c conf => (memory_add_fact ctx c conf).1
  | .memAddExperienceOp c o s => (memory_add_experience ctx c o s).1
  | .memGetContextOp l => (memory_get_context loads ctx l).1
  | .memRelateOp l s o => (memory_relate ctx l s o).1
  | .verifyClaimOp c e conf => (verify_claim ctx c e conf).1
  | .disableCallbacksOp => { ctx with callback_enabled := false }
  | .enableCallbacksOp => { ctx with callback_enabled := true }
  | .disableMemoryOp => { ctx with memory_enabled := false }
  | .enableMemoryOp => { ctx with memory_enabled := true }
  | .disableHallucinationOp => { ctx with hallucination_enabled := false }
  | .enableHallucinationOp => { ctx with hallucination_enabled := true }
  | .execBoundaryOp => ctx

/-- Run a sequence of helper invocations over the worker lifetime. -/
def runHelperOps (loads : String → Except String Json) (ctx : WorkerCtx)
    (ops : List HelperOp) : WorkerCtx :=
  ops.foldl (runHelperOp loads) ctx

/-- The `callback_id` values written to the wire, in emission order. -/
def emittedIds (ctx : WorkerCtx) : List Nat :=
  ctx.emitted.map (fun f => f.callback_id)

theorem alookup_ainsert_self (l : List (String × PyVal)) (n : String) (v : PyVal) :
    alookup (ainsert l n v) n = some v := by
  induction l with
  | nil => simp [ainsert, alookup]
  | cons p rest ih =>
      by_cases h : p.1 = n
      · simp [ainsert, alookup, h]
      · simp [ainsert, alookup, h, ih]

theorem pyIsIdentifier_ne_empty {s : String} (h : pyIsIdentifier s = true) : s ≠ "" := by
  intro he
  subst he
  simp [pyIsIdentifier] at h

theorem mem_ainsert {l : List (String × PyVal)} {n : String} {v : PyVal}
    {p : String × PyVal} (h : p ∈ ainsert l n v) : p = (n, v) ∨ p ∈ l := by
  induction l with
  | nil =>
      simp [ainsert] at h
      simp [h]
  | cons q rest ih =>
      obtain ⟨k, w⟩ := q
      by_cases hq : k = n
      · simp only [ainsert, if_pos hq] at h
        rcases List.mem_cons.mp h with h | h
        · left; rw [h, hq]
        · right; exact List.mem_cons_of_mem _ h
      · simp only [ainsert, if_neg hq] at h
        rcases List.mem_cons.mp h with h | h
        · right; rw [h]; exact List.mem_cons_self _ _
        · rcases ih h with h2 | h2
          · left; exact h2
          · right; exact List.mem_cons_of_mem _ h2

/-- C6: for a code fragment classified as a single expression, a
successful `execute` reports `return_value = repr(eval(e))` when the
value is not `None`, and the empty string when it is `None`; the
`error` field is empty. -/
theorem execute_expr_return_value (st : REPLState) (e : Expr) {g : Globals}
    {out : List String} {v : PyVal}
    (h : evalExpr st.ns.get_globals e = .ok g out v) :
    (REPL.execute st (.exprCode e)).2.return_value
        = (if v = .vnone then "" else pyRepr v) ∧
    (REPL.execute st (.exprCode e)).2.error = "" := by
  unfold REPL.execute
  dsimp only
  rw [h]
  exact ⟨rfl, rfl⟩

/-- Witness for `execute_expr_return_value` at the expression `3`. -/
theorem execute_expr_return_value_witness :
    (REPL.execute initREPLState (.exprCode (.lit (.vint 3)))).2.return_value = "3" ∧
    (REPL.execute initREPLState (.exprCode (.lit (.vint 3)))).2.error = "" := by
  have h := execute_expr_return_value initREPLState (.lit (.vint 3)) rfl
  exact ⟨by rw [h.1]; rfl, h.2⟩

/-- C5: `get_var(name, start, end)` on a stored value that supports
length and indexing (a string, in the modelled value universe) reports
`length = len(v)` computed before any slicing, and `value` is the
string form of `v[start:end]` when `end` is non-zero, of `v[start:]`
when `end` is zero and `start` non-zero, and of `v` unsliced when both
are zero. -/
theorem get_var_pre_slice_length (st : REPLState) (name s : String)
    (start stop : Int) (h : st.ns.get_var name = .ok (.vstr s)) :
    REPL.get_var st name start stop false =
      .ok { value := pyStr (if stop ≠ 0 then pySliceVal (.vstr s) start stop
                            else if start ≠ 0 then pySliceFromVal (.vstr s) start
                            else .vstr s),
            length := s.length, type := "str" } := by
  unfold REPL.get_var
  rw [h]
  dsimp only [hasLen, hasGetitem, pyLen, pyTypeName]
  by_cases hstop : stop = 0
  · by_cases hstart : start = 0
    · simp [hstop, hstart]
    · simp [hstop, hstart]
  · by_cases hstart : start = 0
    · simp [hstop, hstart]
    · simp [hstop, hstart]

/-- Witness for `get_var_pre_slice_length`: a stored five-character
string sliced with `start = 1`, `end = 3`. -/
theorem get_var_pre_slice_length_witness :
    REPL.get_var
        { initREPLState with ns := initREPLNamespace.set_var "v" (.vstr "hello") }
        "v" 1 3 false = .ok { value := "el", length := 5, type := "str" } := by
  have h := get_var_pre_slice_length
    { initREPLState with ns := initREPLNamespace.set_var "v" (.vstr "hello") }
    "v" "hello" 1 3 rfl
  rw [h]
  rfl

/-- C9: `set_var` accepts exactly the syntactically valid identifiers;
after a successful `set_var(name, s)`, `get_var(name)` returns the
stored string itself with `length = len(s)`. -/
theorem set_var_get_var_roundtrip (st : REPLState) (name s : String) :
    (pyIsIdentifier name = true →
      ∃ st2, REPL.set_var st name s = .ok st2 ∧
        REPL.get_var st2 name 0 0 false =
          .ok { value := s, length := s.length, type := "str" }) ∧
    (pyIsIdentifier name = false →
      REPL.set_var st name s = .error ("Invalid variable name: " ++ name)) := by
  constructor
  · intro hid
    have hne : name ≠ "" := pyIsIdentifier_ne_empty hid
    refine ⟨{ st with ns := st.ns.set_var name (.vstr s) }, ?_, ?_⟩
    · unfold REPL.set_var
      simp [hne, hid]
    · unfold REPL.get_var REPLNamespace.get_var
      dsimp only [REPLNamespace.set_var]
      rw [alookup_ainsert_self]
      simp [hasLen, hasGetitem, pyLen, pyStr, pyTypeName]
  · intro hid
    unfold REPL.set_var
    simp [hid]

/-- Witness for `set_var_get_var_roundtrip`: the identifier `x` with
value `"hi"`, and the rejected non-identifier `1x`. -/
theorem set_var_get_var_roundtrip_witness :
    (∃ st2, REPL.set_var initREPLState "x" "hi" = .ok st2 ∧
       REPL.get_var st2 "x" 0 0 false =
         .ok { value := "hi", length := 2, type := "str" }) ∧
    REPL.set_var initREPLState "1x" "hi" = .error "Invalid variable name: 1x" := by
  refine ⟨?_, ?_⟩
  · exact (set_var_get_var_roundtrip initREPLState "x" "hi").1 (by decide)
  · exact (set_var_get_var_roundtrip initREPLState "1x" "hi").2 (by decide)

/-- C1 counterexample: the block `x = 1; raise` binds `x` and then
raises.  After the failing `execute` the binding has NOT survived:
`_vars` is untouched and `get_var("x")` raises `KeyError`, because the
`except` branch of `execute` (line 1628) returns without calling
`update_from_exec`. -/
theorem execute_exception_binding_lost_cex :
    (REPL.execute initREPLState
        (.blockCode [.assign "x" (.lit (.vint 1)), .exprStmt (.raiseErr "boom")])).2.error
      = "RuntimeError: boom" ∧
    (REPL.execute initREPLState
        (.blockCode [.assign "x" (.lit (.vint 1)), .exprStmt (.raiseErr "boom")])).1.ns
      = initREPLNamespace ∧
    REPL.get_var
        (REPL.execute initREPLState
          (.blockCode [.assign "x" (.lit (.vint 1)), .exprStmt (.raiseErr "boom")])).1
        "x" 0 0 false
      = .error "Variable \x27x\x27 not found" :=
  ⟨rfl, rfl, rfl⟩

/-- C1 as amended: when the executed block raises, `execute` skips the
reconciliation entirely — the namespace after the call is exactly the
namespace before it, so bindings made before the exception are
discarded rather than preserved. -/
theorem execute_exception_namespace_unchanged (st : REPLState) (ss : List Stmt)
    {out : List String} {msg : String}
    (h : execBlock st.ns.get_globals ss = .err out msg) :
    (REPL.execute st (.blockCode ss)).1.ns = st.ns ∧
    (REPL.execute st (.blockCode ss)).2.return_value = "" ∧
    (REPL.execute st (.blockCode ss)).2.error = msg := by
  unfold REPL.execute
  dsimp only
  rw [h]
  exact ⟨rfl, rfl, rfl⟩

/-- Witness for `execute_exception_namespace_unchanged` on the block
`x = 1; raise RuntimeError("boom")`. -/
theorem execute_exception_namespace_unchanged_witness :
    (REPL.execute initREPLState
        (.blockCode [.assign "x" (.lit (.vint 1)), .exprStmt (.raiseErr "boom")])).1.ns
      = initREPLState.ns := by
  have h := execute_exception_namespace_unchanged initREPLState
    [.assign "x" (.lit (.vint 1)), .exprStmt (.raiseErr "boom")] rfl
  exact h.1

/-- C4: a line that parses as JSON but is not an object — a JSON array,
or a bare string — makes the `request.get` calls of lines 1543-1545
raise `AttributeError` outside the `try` block; the `main` loop has no
guard, so the worker dies with an unhandled exception and writes no
response frame at all.  The statement is universal over the parser and
the worker state: the crash happens before dispatch. -/
theorem non_object_request_kills_worker
    (parse : String → Except String Code) (st : REPLState) :
    mainLoop parse st [.parsed (.arr [])] =
      ([], some "AttributeError: request object has no attribute get") ∧
    mainLoop parse st [.parsed (.str "hi")] =
      ([], some "AttributeError: request object has no attribute get") :=
  ⟨rfl, rfl⟩

/-- C2 counterexample: with the captured stdin at end-of-file, a blocked
`llm_call` does NOT abort the worker: `_make_callback`'s `RuntimeError`
is caught by `llm_call`'s blanket `except` and converted into exactly
the placeholder string the claim rules out, and the helper returns
normally. -/
theorem eof_callback_not_fatal_cex :
    (llm_call (initWorkerCtx []) "p" "" "auto").2
      = .str "[LLM_CALL_ERROR: EOF while waiting for callback response]" :=
  rfl

/-- C2 as amended: EOF while awaiting a callback reply raises
`RuntimeError` inside `_make_callback`, but the calling helper catches
every exception: `llm_call` returns a placeholder string and evaluation
continues; the worker does not exit. -/
theorem eof_callback_placeholder (ctx : WorkerCtx) (p c m : String)
    (hen : ctx.callback_enabled = true) (heof : ctx.replies = []) :
    (make_callback ctx "llm_call"
        (.obj [("prompt", .str p), ("context", .str c), ("model", .str m)])).2
      = .error "EOF while waiting for callback response" ∧
    (llm_call ctx p c m).2
      = .str "[LLM_CALL_ERROR: EOF while waiting for callback response]" := by
  constructor
  · unfold make_callback
    rw [heof]
  · simp [llm_call, hen, make_callback, heof]

/-- Witness for `eof_callback_placeholder` on a fresh worker whose host
has closed the pipe. -/
theorem eof_callback_placeholder_witness :
    (llm_call (initWorkerCtx []) "p" "" "auto").2
      = .str "[LLM_CALL_ERROR: EOF while waiting for callback response]" :=
  (eof_callback_placeholder (initWorkerCtx []) "p" "" "auto" rfl rfl).2

theorem execBlock_snoc_ok (ps : List Stmt) (s : Stmt) {g g1 : Globals}
    {o1 : List String} (h : execBlock g ps = .ok g1 o1) :
    execBlock g (ps ++ [s]) =
      (match execStmt g1 s with
       | .ok g2 o2 => .ok g2 (o1 ++ o2)
       | .err o2 m => .err (o1 ++ o2) m) := by
  induction ps generalizing g o1 with
  | nil =>
      unfold execBlock at h
      cases h
      simp only [List.nil_append]
      unfold execBlock
      cases hs : execStmt g1 s with
      | ok g2 o2 =>
          unfold execBlock
          simp
      | err o2 m => simp
  | cons a t ih =>
      rw [List.cons_append]
      unfold execBlock at h ⊢
      cases ha : execStmt g a with
      | err o m =>
          simp only [ha] at h
          cases h
      | ok ga oa =>
          simp only [ha] at h ⊢
          cases hb : execBlock ga t with
          | err o m =>
              simp only [hb] at h
              cases h
          | ok gb ob =>
              simp only [hb] at h
              cases h
              rw [ih hb]
              cases hs : execStmt g1 s with
              | ok g2 o2 => simp [hs, List.append_assoc]
              | err o2 m => simp [hs, List.append_assoc]

/-- C10: when the executed block ends in an expression statement, that
trailing expression runs twice: once inside `exec` of the whole block
(its effects are reconciled into the namespace) and a second time
through the dedicated `eval` at lines 1616-1626, whose state effects
are discarded, whose writes land in the same capture buffer a second
time, and whose value populates `return_value`. -/
theorem trailing_expression_evaluated_twice (st : REPLState) (ps : List Stmt)
    (e : Expr) {g1 g2 g3 : Globals} {o1 o2 o3 : List String} {v2 v3 : PyVal}
    (hb : execBlock st.ns.get_globals ps = .ok g1 o1)
    (h1 : evalExpr g1 e = .ok g2 o2 v2)
    (h2 : evalExpr g2 e = .ok g3 o3 v3) :
    REPL.execute st (.blockCode (ps ++ [.exprStmt e])) =
      ({ ns := st.ns.update_from_exec g2, exec_count := st.exec_count + 1 },
       { output := (o1 ++ o2) ++ o3,
         return_value := if v3 = .vnone then "" else pyRepr v3,
         error := "" }) := by
  unfold REPL.execute
  dsimp only
  rw [execBlock_snoc_ok ps (.exprStmt e) hb]
  have hs : execStmt g1 (.exprStmt e) = .ok g2 o2 := by simp [execStmt, h1]
  rw [hs]
  rw [List.getLast?_concat]
  dsimp only
  rw [h2]

/-- Witness for `trailing_expression_evaluated_twice`: the block
`x = 0` followed by the expression statement `x := x + 1`.  The first
evaluation leaves `x = 1`; `return_value` is `"2"`, the value of the
second evaluation. -/
theorem trailing_expression_evaluated_twice_witness :
    (REPL.execute initREPLState
        (.blockCode ([Stmt.assign "x" (.lit (.vint 0))] ++
          [Stmt.exprStmt (.incr "x")]))).2.return_value = "2" := by
  have h := trailing_expression_evaluated_twice initREPLState
    [Stmt.assign "x" (.lit (.vint 0))] (Expr.incr "x") rfl rfl rfl
  rw [h]
  rfl

/-- C3 counterexample: `set_var` validates its name only with
`isidentifier`, which accepts `_x`, and `list_vars` iterates `_vars`
with no underscore filter — so an underscore-prefixed name set by the
host appears in the `variables` listing. -/
theorem underscore_name_in_list_vars_cex :
    "_x" ∈ listVarsNames (runCommands initREPLState [.setVarCmd "_x" "hi"]) ∧
    startsUnderscore "_x" = true := by
  constructor
  · have h : listVarsNames (runCommands initREPLState [.setVarCmd "_x" "hi"])
        = ["_x"] := rfl
    rw [h]
    exact List.mem_singleton.mpr rfl
  · rfl

theorem updateStep_no_underscore {ns : REPLNamespace}
    (h : ∀ p ∈ ns.vars, startsUnderscore p.1 = false) (q : String × PyVal) :
    ∀ p ∈ (updateStep ns q).vars, startsUnderscore p.1 = false := by
  intro p hp
  unfold updateStep at hp
  by_cases h1 : startsUnderscore q.1 = true
  · rw [if_pos h1] at hp
    exact h p hp
  · rw [if_neg h1] at hp
    by_cases h2 : stdlibNames.contains q.1 = true
    · rw [if_pos h2] at hp
      exact h p hp
    · rw [if_neg h2] at hp
      by_cases h3 : alookup ns.globals q.1 = some q.2
      · rw [if_pos h3] at hp
        exact h p hp
      · rw [if_neg h3] at hp
        dsimp only at hp
        rcases mem_ainsert hp with heq | hmem
        · rw [heq]
          simpa using h1
        · exact h p hmem

theorem update_from_exec_no_underscore {ns : REPLNamespace} (g : Globals)
    (h : ∀ p ∈ ns.vars, startsUnderscore p.1 = false) :
    ∀ p ∈ (ns.update_from_exec g).vars, startsUnderscore p.1 = false := by
  unfold REPLNamespace.update_from_exec
  induction g generalizing ns with
  | nil => exact h
  | cons q t ih => exact ih (updateStep_no_underscore h q)

theorem execute_ns_characterization (st : REPLState) (c : Code) :
    (REPL.execute st c).1.ns = st.ns ∨
    ∃ g, (REPL.execute st c).1.ns = st.ns.update_from_exec g := by
  cases c with
  | exprCode e =>
      unfold REPL.execute
      dsimp only
      split
      · next g out v heq => right; exact ⟨g, rfl⟩
      · left; rfl
  | blockCode ss =>
      unfold REPL.execute
      dsimp only
      split
      · left; rfl
      · next g out heq =>
          right
          refine ⟨g, ?_⟩
          split
          · split
            · rfl
            · rfl
          · rfl

theorem execute_no_underscore {st : REPLState} (c : Code)
    (h : ∀ p ∈ st.ns.vars, startsUnderscore p.1 = false) :
    ∀ p ∈ (REPL.execute st c).1.ns.vars, startsUnderscore p.1 = false := by
  rcases execute_ns_characterization st c with heq | ⟨g, heq⟩
  · rw [heq]; exact h
  · rw [heq]; exact update_from_exec_no_underscore g h

theorem set_var_cases (st : REPLState) (n v : String) :
    REPL.set_var st n v = .error ("Invalid variable name: " ++ n) ∨
    (pyIsIdentifier n = true ∧
     REPL.set_var st n v = .ok { st with ns := st.ns.set_var n (.vstr v) }) := by
  unfold REPL.set_var
  by_cases hid : pyIsIdentifier n = true
  · right
    refine ⟨hid, ?_⟩
    have hne : n ≠ "" := pyIsIdentifier_ne_empty hid
    simp [hne, hid]
  · left
    simp [hid]

theorem runCommand_no_underscore {st : REPLState} (c : Command)
    (hc : ∀ n v, c = Command.setVarCmd n v → startsUnderscore n = false)
    (h : ∀ p ∈ st.ns.vars, startsUnderscore p.1 = false) :
    ∀ p ∈ (runCommand st c).ns.vars, startsUnderscore p.1 = false := by
  cases c with
  | execCmd code => exact execute_no_underscore code h
  | setVarCmd n v =>
      unfold runCommand
      dsimp only
      rcases set_var_cases st n v with he | ⟨hid, he⟩
      · rw [he]
        exact h
      · rw [he]
        intro p hp
        dsimp only [REPLNamespace.set_var] at hp
        rcases mem_ainsert hp with heq | hmem
        · rw [heq]
          exact hc n v rfl
        · exact h p hmem
  | getVarCmd n a b r => exact h
  | listVarsCmd => exact h
  | statusCmd => exact h

/-- C3 as amended: underscore-prefixed names can only ever enter the
user-visible listing through `set_var` — `update_from_exec` filters
them, so as long as the host never calls `set_var` with an
underscore-prefixed name, no such name appears in `list_vars`, whatever
commands (including arbitrary `execute`s) are run. -/
theorem list_vars_no_underscore (cmds : List Command)
    (h : ∀ n v, Command.setVarCmd n v ∈ cmds → startsUnderscore n = false) :
    ∀ name ∈ listVarsNames (runCommands initREPLState cmds),
      startsUnderscore name = false := by
  have main : ∀ (cs : List Command) (st : REPLState),
      (∀ n v, Command.setVarCmd n v ∈ cs → startsUnderscore n = false) →
      (∀ p ∈ st.ns.vars, startsUnderscore p.1 = false) →
      ∀ p ∈ (runCommands st cs).ns.vars, startsUnderscore p.1 = false := by
    intro cs
    induction cs with
    | nil => intro st _ hst; exact hst
    | cons c t ih =>
        intro st hcs hst
        refine ih (runCommand st c) (fun n v hm => hcs n v (List.mem_cons_of_mem _ hm)) ?_
        exact runCommand_no_underscore c
          (fun n v he => hcs n v (he ▸ List.mem_cons_self _ _)) hst
  intro name hname
  unfold listVarsNames REPL.list_vars REPLNamespace.list_vars at hname
  rw [List.map_map] at hname
  obtain ⟨p, hp, rfl⟩ := List.mem_map.mp hname
  exact main cmds initREPLState h
    (by intro p hp; simp [initREPLState, initREPLNamespace] at hp) p hp

/-- Witness for `list_vars_no_underscore`: a `set_var` of `x` followed
by an `execute` that assigns `y`; the listed name `y` does not start
with an underscore. -/
theorem list_vars_no_underscore_witness :
    "y" ∈ listVarsNames (runCommands initREPLState
        [.setVarCmd "x" "hi",
         .execCmd (.blockCode [.assign "y" (.lit (.vint 1))])]) ∧
    startsUnderscore "y" = false := by
  have hl : listVarsNames (runCommands initREPLState
      [.setVarCmd "x" "hi",
       .execCmd (.blockCode [.assign "y" (.lit (.vint 1))])]) = ["x", "y"] := rfl
  have hmem : "y" ∈ listVarsNames (runCommands initREPLState
      [.setVarCmd "x" "hi",
       .execCmd (.blockCode [.assign "y" (.lit (.vint 1))])]) := by
    rw [hl]
    exact List.mem_cons_of_mem _ (List.mem_singleton.mpr rfl)
  refine ⟨hmem, ?_⟩
  exact list_vars_no_underscore
    [.setVarCmd "x" "hi", .execCmd (.blockCode [.assign "y" (.lit (.vint 1))])]
    (by
      intro n v hm
      rcases List.mem_cons.mp hm with he | hm2
      · cases he; rfl
      · rcases List.mem_cons.mp hm2 with he | hm3
        · cases he
        · cases hm3)
    "y" hmem

/-- The callback-id invariant: the ids emitted so far are exactly
`1, 2, ..., counter`, in order. -/
def CtxIdInv (ctx : WorkerCtx) : Prop :=
  emittedIds ctx = List.range' 1 ctx.counter

theorem make_callback_fst (ctx : WorkerCtx) (t : String) (pr : Json) :
    (make_callback ctx t pr).1 =
      { ctx with counter := ctx.counter + 1,
                 emitted := ctx.emitted ++
                   [{ callback := t, callback_id := ctx.counter + 1, params := pr }],
                 replies := ctx.replies.tail } := by
  unfold make_callback
  cases hr : ctx.replies with
  | nil => rfl
  | cons r rest =>
      dsimp only
      by_cases he : r.error ≠ ""
      · rw [if_pos he]
        rfl
      · rw [if_neg he]
        rfl

theorem range'_one_concat (n : Nat) :
    List.range' 1 (n + 1) = List.range' 1 n ++ [n + 1] := by
  rw [List.range'_concat]
  simp [Nat.add_comm]

theorem make_callback_inv {ctx : WorkerCtx} (h : CtxIdInv ctx) (t : String)
    (pr : Json) : CtxIdInv (make_callback ctx t pr).1 := by
  unfold CtxIdInv emittedIds at h ⊢
  rw [make_callback_fst]
  dsimp only
  rw [List.map_append, h]
  dsimp only [List.map]
  rw [range'_one_concat]

theorem llm_call_fst (ctx : WorkerCtx) (p c m : String) :
    (llm_call ctx p c m).1 = ctx ∨
    ∃ t pr, (llm_call ctx p c m).1 = (make_callback ctx t pr).1 := by
  unfold llm_call
  split
  · left; rfl
  · split
    · next ctx2 e heq => right; exact ⟨"llm_call", _, by rw [heq]⟩
    · next ctx2 resp heq => right; exact ⟨"llm_call", _, by rw [heq]⟩

theorem llm_call_inv {ctx : WorkerCtx} (h : CtxIdInv ctx) (p c m : String) :
    CtxIdInv (llm_call ctx p c m).1 := by
  rcases llm_call_fst ctx p c m with heq | ⟨t, pr, heq⟩
  · rw [heq]; exact h
  · rw [heq]; exact make_callback_inv h t pr

theorem llmCallEach_inv (pcs : List (String × String)) :
    ∀ {ctx : WorkerCtx}, CtxIdInv ctx → ∀ m : String,
      CtxIdInv (llmCallEach ctx m pcs).1 := by
  induction pcs with
  | nil => intro ctx h m; exact h
  | cons pc rest ih =>
      intro ctx h m
      obtain ⟨p, c⟩ := pc
      have h2 := llm_call_inv h p c m
      have h3 := ih h2 m
      have heq : (llmCallEach ctx m ((p, c) :: rest)).1
          = (llmCallEach (llm_call ctx p c m).1 m rest).1 := rfl
      rw [heq]
      exact h3

theorem llm_batch_inv {ctx : WorkerCtx} (h : CtxIdInv ctx) (ps : List String)
    (cs : Option (List String)) (m : String) :
    CtxIdInv (llm_batch ctx ps cs m).1 := by
  unfold llm_batch
  dsimp only
  split
  · exact h
  · split
    · exact h
    · split
      · next ctx2 resp heq =>
          have h2 : (make_callback ctx "llm_batch"
              (.obj [("prompts", .arr (ps.map Json.str)),
                     ("contexts", .arr ((cs.getD (List.replicate ps.length "")).map Json.str)),
                     ("model", .str m)])).1 = ctx2 := by rw [heq]
          rw [← h2]
          exact make_callback_inv h _ _
      · next ctx2 e heq =>
          have h2 : (make_callback ctx "llm_batch"
              (.obj [("prompts", .arr (ps.map Json.str)),
                     ("contexts", .arr ((cs.getD (List.replicate ps.length "")).map Json.str)),
                     ("model", .str m)])).1 = ctx2 := by rw [heq]
          have h3 : CtxIdInv ctx2 := by rw [← h2]; exact make_callback_inv h _ _
          exact llmCallEach_inv _ h3 m

theorem memory_query_fst (loads : String → Except String Json)
    (ctx : WorkerCtx) (q : String) (lim : Int) :
    (memory_query loads ctx q lim).1 = ctx ∨
    ∃ t pr, (memory_query loads ctx q lim).1 = (make_callback ctx t pr).1 := by
  unfold memory_query
  split
  · left; rfl
  · split
    · next ctx2 e heq => right; exact ⟨"memory_query", _, by rw [heq]⟩
    · next ctx2 resp heq =>
        right
        refine ⟨"memory_query",
          Json.obj [("query", Json.str q), ("limit", Json.num (lim : Rat))], ?_⟩
        have h2 : (make_callback ctx "memory_query"
            (Json.obj [("query", Json.str q), ("limit", Json.num (lim : Rat))])).1
              = ctx2 := by rw [heq]
        rw [h2]
        dsimp only
        split
        · rfl
        · split
          · rfl
          · rfl

theorem memory_add_fact_fst (ctx : WorkerCtx) (content : String) (conf : Rat) :
    (memory_add_fact ctx content conf).1 = ctx ∨
    ∃ t pr, (memory_add_fact ctx content conf).1 = (make_callback ctx t pr).1 := by
  unfold memory_add_fact
  split
  · left; rfl
  · split
    · next ctx2 e heq => right; exact ⟨"memory_add_fact", _, by rw [heq]⟩
    · next ctx2 resp heq => right; exact ⟨"memory_add_fact", _, by rw [heq]⟩

theorem memory_add_experience_fst (ctx : WorkerCtx) (content outcome : String)
    (success : Bool) :
    (memory_add_experience ctx content outcome success).1 = ctx ∨
    ∃ t pr, (memory_add_experience ctx content outcome success).1
        = (make_callback ctx t pr).1 := by
  unfold memory_add_experience
  split
  · left; rfl
  · split
    · next ctx2 e heq => right; exact ⟨"memory_add_experience", _, by rw [heq]⟩
    · next ctx2 resp heq => right; exact ⟨"memory_add_experience", _, by rw [heq]⟩

theorem memory_get_context_fst (loads : String → Except String Json)
    (ctx : WorkerCtx) (lim : Int) :
    (memory_get_context loads ctx lim).1 = ctx ∨
    ∃ t pr, (memory_get_context loads ctx lim).1 = (make_callback ctx t pr).1 := by
  unfold memory_get_context
  split
  · left; rfl
  · split
    · next ctx2 e heq => right; exact ⟨"memory_get_context", _, by rw [heq]⟩
    · next ctx2 resp heq =>
        right
        refine ⟨"memory_get_context",
          Json.obj [("limit", Json.num (lim : Rat))], ?_⟩
        have h2 : (make_callback ctx "memory_get_context"
            (Json.obj [("limit", Json.num (lim : Rat))])).1 = ctx2 := by rw [heq]
        rw [h2]
        dsimp only
        split
        · rfl
        · split
          · rfl
          · rfl

theorem memory_relate_fst (ctx : WorkerCtx) (label s o : String) :
    (memory_relate ctx label s o).1 = ctx ∨
    ∃ t pr, (memory_relate ctx label s o).1 = (make_callback ctx t pr).1 := by
  unfold memory_relate
  split
  · left; rfl
  · split
    · next ctx2 e heq => right; exact ⟨"memory_relate", _, by rw [heq]⟩
    · next ctx2 resp heq => right; exact ⟨"memory_relate", _, by rw [heq]⟩

theorem verify_claim_fst (ctx : WorkerCtx) (c e : String) (conf : Rat) :
    (verify_claim ctx c e conf).1 = ctx ∨
    ∃ t pr, (verify_claim ctx c e conf).1 = (make_callback ctx t pr).1 := by
  unfold verify_claim
  split
  · left; rfl
  · split
    · next ctx2 er heq => right; exact ⟨"plugin_call", _, by rw [heq]⟩
    · next ctx2 resp heq => right; exact ⟨"plugin_call", _, by rw [heq]⟩

theorem runHelperOp_inv (loads : String → Except String Json)
    {ctx : WorkerCtx} (h : CtxIdInv ctx) (op : HelperOp) :
    CtxIdInv (runHelperOp loads ctx op) := by
  cases op with
  | llmCallOp p c m => exact llm_call_inv h p c m
  | llmBatchOp ps cs m => exact llm_batch_inv h ps cs m
  | memQueryOp q l =>
      rcases memory_query_fst loads ctx q l with heq | ⟨t, pr, heq⟩
      · show CtxIdInv (memory_query loads ctx q l).1
        rw [heq]; exact h
      · show CtxIdInv (memory_query loads ctx q l).1
        rw [heq]; exact make_callback_inv h t pr
  | memAddFactOp c conf =>
      rcases memory_add_fact_fst ctx c conf with heq | ⟨t, pr, heq⟩
      · show CtxIdInv (memory_add_fact ctx c conf).1
        rw [heq]; exact h
      · show CtxIdInv (memory_add_fact ctx c conf).1
        rw [heq]; exact make_callback_inv h t pr
  | memAddExperienceOp c o s =>
      rcases memory_add_experience_fst ctx c o s with heq | ⟨t, pr, heq⟩
      · show CtxIdInv (memory_add_experience ctx c o s).1
        rw [heq]; exact h
      · show CtxIdInv (memory_add_experience ctx c o s).1
        rw [heq]; exact make_callback_inv h t pr
  | memGetContextOp l =>
      rcases memory_get_context_fst loads ctx l with heq | ⟨t, pr, heq⟩
      · show CtxIdInv (memory_get_context loads ctx l).1
        rw [heq]; exact h
      · show CtxIdInv (memory_get_context loads ctx l).1
        rw [heq]; exact make_callback_inv h t pr
  | memRelateOp l s o =>
      rcases memory_relate_fst ctx l s o with heq | ⟨t, pr, heq⟩
      · show CtxIdInv (memory_relate ctx l s o).1
        rw [heq]; exact h
      · show CtxIdInv (memory_relate ctx l s o).1
        rw [heq]; exact make_callback_inv h t pr
  | verifyClaimOp c e conf =>
      rcases verify_claim_fst ctx c e conf with heq | ⟨t, pr, heq⟩
      · show CtxIdInv (verify_claim ctx c e conf).1
        rw [heq]; exact h
      · show CtxIdInv (verify_claim ctx c e conf).1
        rw [heq]; exact make_callback_inv h t pr
  | disableCallbacksOp => exact h
  | enableCallbacksOp => exact h
  | disableMemoryOp => exact h
  | enableMemoryOp => exact h
  | disableHallucinationOp => exact h
  | enableHallucinationOp => exact h
  | execBoundaryOp => exact h

theorem runHelperOps_inv (loads : String → Except String Json)
    (ops : List HelperOp) :
    ∀ {ctx : WorkerCtx}, CtxIdInv ctx →
      CtxIdInv (runHelperOps loads ctx ops) := by
  induction ops with
  | nil => intro ctx h; exact h
  | cons op rest ih =>
      intro ctx h
      exact ih (runHelperOp_inv loads h op)

theorem pairwise_lt_range' (s n : Nat) :
    List.Pairwise (fun a b => a < b) (List.range' s n) := by
  induction n generalizing s with
  | zero => simp
  | succ k ih =>
      rw [List.range'_succ]
      refine List.Pairwise.cons ?_ (ih (s + 1))
      intro b hb
      have := (List.mem_range'_1.mp hb).1
      omega

/-- C7: over a worker lifetime — any sequence of helper invocations,
enable/disable toggles and `execute` boundaries, against any host reply
stream — the `callback_id` values emitted in callback frames are
exactly `1, 2, ..., counter`: strictly monotonically increasing,
starting from 1, never reset. -/
theorem callback_ids_strictly_increasing (loads : String → Except String Json)
    (replies : List CallbackResponse) (ops : List HelperOp) :
    emittedIds (runHelperOps loads (initWorkerCtx replies) ops)
      = List.range' 1 (runHelperOps loads (initWorkerCtx replies) ops).counter ∧
    List.Chain' (fun a b => a < b)
      (emittedIds (runHelperOps loads (initWorkerCtx replies) ops)) ∧
    ∀ i ∈ emittedIds (runHelperOps loads (initWorkerCtx replies) ops), 1 ≤ i := by
  have hinit : CtxIdInv (initWorkerCtx replies) := rfl
  have hinv := runHelperOps_inv loads ops hinit
  refine ⟨hinv, ?_, ?_⟩
  · rw [hinv]
    exact (pairwise_lt_range' 1 _).chain'
  · rw [hinv]
    intro i hi
    exact (List.mem_range'_1.mp hi).1

/-- C8: a callback response carrying a non-empty `error` field never
surfaces as a worker-level error.  `llm_call` returns the
`[LLM_CALL_ERROR: ...]` placeholder string; `memory_query` returns the
empty list and `memory_add_fact` the empty string; `llm_batch` falls
back to issuing one `llm_call` per prompt against the remaining reply
stream. -/
theorem callback_error_graceful (loads : String → Except String Json)
    (ctx : WorkerCtx) (r : CallbackResponse) (rest : List CallbackResponse)
    (p c m q content : String) (lim : Int) (conf : Rat)
    (prompts contexts : List String)
    (hen : ctx.callback_enabled = true) (hmem : ctx.memory_enabled = true)
    (herr : r.error ≠ "") (hreplies : ctx.replies = r :: rest)
    (hlen : prompts.length = contexts.length) :
    (llm_call ctx p c m).2
        = .str ("[LLM_CALL_ERROR: " ++ ("LLM callback error: " ++ r.error) ++ "]") ∧
    (memory_query loads ctx q lim).2 = [] ∧
    (memory_add_fact ctx content conf).2 = .str "" ∧
    llm_batch ctx prompts (some contexts) m
        = (let ctx2 := (make_callback ctx "llm_batch"
              (.obj [("prompts", .arr (prompts.map Json.str)),
                     ("contexts", .arr (contexts.map Json.str)),
                     ("model", .str m)])).1
           let fb := llmCallEach ctx2 m (prompts.zip contexts)
           (fb.1, .ok fb.2)) := by
  have hmc : ∀ (t : String) (pr : Json), make_callback ctx t pr =
      ({ ctx with counter := ctx.counter + 1,
                  emitted := ctx.emitted ++
                    [{ callback := t, callback_id := ctx.counter + 1, params := pr }],
                  replies := rest },
       .error ("LLM callback error: " ++ r.error)) := by
    intro t pr
    unfold make_callback
    rw [hreplies]
    dsimp only
    rw [if_pos herr]
  refine ⟨?_, ?_, ?_, ?_⟩
  · unfold llm_call
    rw [hen, hmc]
    rfl
  · unfold memory_query
    rw [hmem, hmc]
    rfl
  · unfold memory_add_fact
    rw [hmem, hmc]
    rfl
  · unfold llm_batch
    dsimp only
    simp only [Option.getD_some]
    rw [if_neg (by simp [hlen])]
    rw [hen, hmc]
    rfl

/-- Witness for `callback_error_graceful`: one errored reply followed
by one good reply, a single-prompt batch. -/
theorem callback_error_graceful_witness :
    (llm_call (initWorkerCtx
        [{ result := none, results := none, error := "boom" },
         { result := some (.str "ok"), results := none, error := "" }])
      "p" "" "auto").2 = .str "[LLM_CALL_ERROR: LLM callback error: boom]" ∧
    (llm_batch (initWorkerCtx
        [{ result := none, results := none, error := "boom" },
         { result := some (.str "ok"), results := none, error := "" }])
      ["p"] (some ["c"]) "auto").2 = .ok [.str "ok"] := by
  have h := callback_error_graceful (fun _ => .error "")
    (initWorkerCtx
      [{ result := none, results := none, error := "boom" },
       { result := some (.str "ok"), results := none, error := "" }])
    { result := none, results := none, error := "boom" }
    [{ result := some (.str "ok"), results := none, error := "" }]
    "p" "" "auto" "q" "f" 1 1 ["p"] ["c"] rfl rfl (by decide) rfl rfl
  refine ⟨h.1, ?_⟩
  rw [h.2.2.2]
  rfl
